import Mathlib

/-!
Verification development for the sparql_anything repository.

The repository ships two glue layers (`src/api.py`, a FastAPI endpoint, and
`src/app.py`, a Streamlit UI) around an external JVM conversion engine.
The specification's CORE — the schema-less tree/table-to-RDF mapping engine
(PathIdentifier, TurtleWriter, XmlTreeMapper, JsonTreeMapper, TabularMapper)
— is not present under `src/`; those components are modelled here from the
spec's words (each such definition is marked `Modelled from the spec:`).
The FastAPI endpoint `convert_to_rdf` of `src/api.py` is embedded faithfully
from the source, with its effectful steps (base64 decode, temp-file creation,
engine run, file read) supplied as an explicit environment of outcomes.
-/

namespace SparqlAnything

/-! ## PathIdentifier (spec §4.1) -/

/-- Modelled from the spec: the character class `[A-Za-z0-9_]` of URI-safe
characters kept by `PathIdentifier.token`. -/
def isTokenSafe (c : Char) : Bool :=
  c.isAlphanum || c == '_'

/-- Modelled from the spec: `PathIdentifier.token` replaces every character
outside `[A-Za-z0-9_]` with `_`; it is a deterministic pure function of the
path string alone (the spec mandates that no identity-hash state is used). -/
def token (path : String) : String :=
  String.mk (path.data.map (fun c => if isTokenSafe c then c else '_'))

/-! ## TurtleWriter (spec §4.2)

A statement block is a list of lines; each line is a list of characters so
that the terminator rewriting of `endStatement` is plain list surgery. -/

/-- Modelled from the spec: the tagged union of property values
(`StringLiteral`, `RawToken`, `NodeRef`). -/
inductive Value where
  | StringLiteral (s : String)
  | RawToken (t : String)
  | NodeRef (uri : String)
deriving Repr, DecidableEq

/-- Modelled from the spec: escaping for string literals — `"` becomes `\"`
and a newline becomes `\n`. -/
def escapeLit (s : String) : String :=
  String.mk (s.data.foldr (fun c acc =>
    if c == '"' then '\\' :: '"' :: acc
    else if c == '\n' then '\\' :: 'n' :: acc
    else c :: acc) [])

/-- Modelled from the spec: literal rendering — `StringLiteral` double-quoted
and escaped, `RawToken` verbatim unquoted, `NodeRef` as
`<http://example.org/uri>`. -/
def renderValue : Value → String
  | .StringLiteral s => "\"" ++ escapeLit s ++ "\""
  | .RawToken t => t
  | .NodeRef uri => "<http://example.org/" ++ uri ++ ">"

/-- A line under construction: its text followed by the `;` terminator the
writer appends to every emitted line. -/
def mkLine (text : String) : List Char :=
  (text ++ " ").data ++ [';']

/-- Modelled from the spec: the TurtleWriter's state while one statement
block is open — the lines emitted so far, every one of them `;`-terminated
until `endStatement` rewrites the last terminator. -/
structure Writer where
  lines : List (List Char)
deriving Repr

/-- Modelled from the spec: `beginStatement(uri, typeTag, label?)` writes
`<http://example.org/uri> a fx:typeTag ;`, and when a label is present a
`rdfs:label` line (the `rdfs:` prefix of the output header exists for this). -/
def beginStatement (uri typeTag : String) (label : Option String) : Writer :=
  let tline := mkLine ("<http://example.org/" ++ uri ++ "> a fx:" ++ typeTag)
  match label with
  | none => ⟨[tline]⟩
  | some l => ⟨[tline, mkLine ("    rdfs:label " ++ renderValue (.StringLiteral l))]⟩

/-- Modelled from the spec: `addProperty(predicate, value)` appends a line
`predicate value ;` rendered with `renderValue`. -/
def addProperty (w : Writer) (pred : String) (v : Value) : Writer :=
  ⟨w.lines ++ [mkLine ("    " ++ pred ++ " " ++ renderValue v)]⟩

/-- Rewrite the terminator of the last line of a block from `;` to `.`. -/
def rewriteLast : List (List Char) → List (List Char)
  | [] => []
  | [l] => [l.dropLast ++ ['.']]
  | l :: l' :: ls => l :: rewriteLast (l' :: ls)

/-- Modelled from the spec: `endStatement()` rewrites the terminator of the
last emitted line from `;` to `.` and yields the finished block. -/
def endStatement (w : Writer) : List (List Char) :=
  rewriteLast w.lines

/-- Modelled from the spec: a Node emission — URI token, type tag, optional
label, and the ordered property list driven into the writer. -/
structure NodeEmission where
  uri : String
  typeTag : String
  label : Option String
  props : List (String × Value)
deriving Repr

/-- The statement block a Node produces through the writer call sequence
`beginStatement … addProperty* … endStatement`. -/
def writeBlock (n : NodeEmission) : List (List Char) :=
  endStatement (n.props.foldl (fun w pv => addProperty w pv.1 pv.2)
    (beginStatement n.uri n.typeTag n.label))

/-- A line `ends in` a character when that character is its last one. -/
def lineEndsIn (c : Char) (l : List Char) : Prop :=
  l.getLast? = some c

instance (c : Char) (l : List Char) : Decidable (lineEndsIn c l) := by
  unfold lineEndsIn; infer_instance

/-! ## Input decoding (spec §6, §7)

The core receives a raw byte buffer; an invalid byte-to-text decoding is the
spec's `EncodingFailure`. Bytes are modelled as natural numbers below 256. -/

/-- A UTF-8 continuation byte. -/
def contByte (b : Nat) : Bool :=
  0x80 ≤ b && b < 0xC0

/-- Modelled from the spec: strict UTF-8 decoding of the input byte buffer
(the spec only says decoding can fail; this is the standard strict decoder:
no overlong forms, no surrogates, no code points above U+10FFFF). -/
def decodeUtf8 : List Nat → Option (List Char)
  | [] => some []
  | b :: rest =>
    if b < 0x80 then
      (decodeUtf8 rest).map (fun cs => Char.ofNat b :: cs)
    else if b < 0xC2 then none
    else if b < 0xE0 then
      match rest with
      | b2 :: rest2 =>
        if contByte b2 then
          (decodeUtf8 rest2).map (fun cs => Char.ofNat ((b - 0xC0) * 64 + (b2 - 0x80)) :: cs)
        else none
      | [] => none
    else if b < 0xF0 then
      match rest with
      | b2 :: b3 :: rest2 =>
        if contByte b2 && contByte b3 then
          let cp := (b - 0xE0) * 4096 + (b2 - 0x80) * 64 + (b3 - 0x80)
          if cp < 0x800 || (0xD800 ≤ cp && cp < 0xE000) then none
          else (decodeUtf8 rest2).map (fun cs => Char.ofNat cp :: cs)
        else none
      | _ => none
    else if b < 0xF5 then
      match rest with
      | b2 :: b3 :: b4 :: rest2 =>
        if contByte b2 && contByte b3 && contByte b4 then
          let cp := (b - 0xF0) * 0x40000 + (b2 - 0x80) * 4096 + (b3 - 0x80) * 64 + (b4 - 0x80)
          if cp < 0x10000 || 0x110000 ≤ cp then none
          else (decodeUtf8 rest2).map (fun cs => Char.ofNat cp :: cs)
        else none
      | _ => none
    else none

/-! ## Parsed documents and parsers (spec §4.3–§4.5, §7)

The spec delegates parsing to "the underlying parser" and only requires that
a malformed document yields a `ParseFailure` carrying the parser's
diagnostic. The parsers below are simplified but genuine recursive-descent
parsers, modelled from the spec's description of the parsed structures. -/

/-- Modelled from the spec: a parsed JSON value; the numeral keeps its source
token so that `RawToken` emission is verbatim. -/
inductive Json where
  | jnull
  | jbool (b : Bool)
  | jnum (raw : String)
  | jstr (s : String)
  | jarr (items : List Json)
  | jobj (fields : List (String × Json))
deriving Repr

/-- Containers are objects and arrays; everything else is a scalar. -/
def Json.isContainer : Json → Bool
  | .jarr _ => true
  | .jobj _ => true
  | _ => false

/-- Skip JSON insignificant whitespace. -/
def skipWs : List Char → List Char
  | [] => []
  | c :: rest =>
    if c == ' ' || c == '\n' || c == '\t' || c == '\r' then skipWs rest else c :: rest

/-- Parse the body of a JSON string after its opening quote. -/
def parseJString : List Char → Except String (String × List Char)
  | [] => .error "unterminated string"
  | c :: rest =>
    if c == '"' then .ok ("", rest)
    else if c == '\\' then
      match rest with
      | [] => .error "unterminated escape"
      | e :: rest2 =>
        let dec : Option Char :=
          if e == 'n' then some '\n' else if e == 't' then some '\t'
          else if e == 'r' then some '\r' else if e == '"' then some '"'
          else if e == '\\' then some '\\' else if e == '/' then some '/' else none
        match dec with
        | none => .error "unsupported escape"
        | some ch => (parseJString rest2).map (fun sr => (String.mk (ch :: sr.1.data), sr.2))
    else (parseJString rest).map (fun sr => (String.mk (c :: sr.1.data), sr.2))

/-- Characters that may appear in a JSON numeral token. -/
def isNumChar (c : Char) : Bool :=
  c.isDigit || c == '-' || c == '+' || c == '.' || c == 'e' || c == 'E'

/-- Take the longest run of numeral characters. -/
def takeNumToken : List Char → List Char × List Char
  | [] => ([], [])
  | c :: rest =>
    if isNumChar c then
      let tr := takeNumToken rest
      (c :: tr.1, tr.2)
    else ([], c :: rest)

/-- Check that a character list starts with the given literal word. -/
def dropWord : List Char → List Char → Option (List Char)
  | [], s => some s
  | _ :: _, [] => none
  | w :: ws, c :: rest => if w == c then dropWord ws rest else none

mutual

/-- Modelled from the spec: fuel-bounded recursive-descent JSON value parser. -/
def parseJValue : Nat → List Char → Except String (Json × List Char)
  | 0, _ => .error "nesting too deep"
  | fuel + 1, s =>
    match skipWs s with
    | [] => .error "unexpected end of input"
    | c :: rest =>
      if c == '{' then
        match skipWs rest with
        | '}' :: rest2 => .ok (.jobj [], rest2)
        | rest2 => (parseJObjFields fuel rest2).map (fun fr => (.jobj fr.1, fr.2))
      else if c == '[' then
        match skipWs rest with
        | ']' :: rest2 => .ok (.jarr [], rest2)
        | rest2 => (parseJArrItems fuel rest2).map (fun ir => (.jarr ir.1, ir.2))
      else if c == '"' then
        (parseJString rest).map (fun sr => (.jstr sr.1, sr.2))
      else
        match dropWord "true".data (c :: rest) with
        | some rest2 => .ok (.jbool true, rest2)
        | none =>
        match dropWord "false".data (c :: rest) with
        | some rest2 => .ok (.jbool false, rest2)
        | none =>
        match dropWord "null".data (c :: rest) with
        | some rest2 => .ok (.jnull, rest2)
        | none =>
          match takeNumToken (c :: rest) with
          | ([], _) => .error "unexpected character"
          | (tok, rest2) => .ok (.jnum (String.mk tok), rest2)

/-- Parse the comma-separated items of a JSON array, up to `]`. -/
def parseJArrItems : Nat → List Char → Except String (List Json × List Char)
  | 0, _ => .error "nesting too deep"
  | fuel + 1, s =>
    match parseJValue fuel s with
    | .error e => .error e
    | .ok (v, rest) =>
      match skipWs rest with
      | ',' :: rest2 => (parseJArrItems fuel rest2).map (fun ir => (v :: ir.1, ir.2))
      | ']' :: rest2 => .ok ([v], rest2)
      | _ => .error "expected comma or closing bracket"

/-- Parse the comma-separated fields of a JSON object, up to the closing
brace. -/
def parseJObjFields : Nat → List Char → Except String (List (String × Json) × List Char)
  | 0, _ => .error "nesting too deep"
  | fuel + 1, s =>
    match skipWs s with
    | '"' :: rest =>
      (match parseJString rest with
       | .error e => .error e
       | .ok (k, rest2) =>
         match skipWs rest2 with
         | ':' :: rest3 =>
           (match parseJValue fuel rest3 with
            | .error e => .error e
            | .ok (v, rest4) =>
              match skipWs rest4 with
              | ',' :: rest5 =>
                (parseJObjFields fuel rest5).map (fun fr => ((k, v) :: fr.1, fr.2))
              | '}' :: rest5 => .ok ([(k, v)], rest5)
              | _ => .error "expected comma or closing brace")
         | _ => .error "expected colon")
    | _ => .error "expected object key"

end

/-- Modelled from the spec: parse a whole JSON document — one value with only
whitespace after it. -/
def parseJsonDoc (text : String) : Except String Json :=
  match parseJValue (4 * text.data.length + 16) text.data with
  | .error e => .error e
  | .ok (v, rest) =>
    match skipWs rest with
    | [] => .ok v
    | _ => .error "trailing data after document"

/-! ### XML -/

/-- Modelled from the spec: a parsed XML element — tag name, attributes in
document order, directly contained character data, and child elements in
document order. -/
inductive Xml where
  | elem (tag : String) (attrs : List (String × String)) (text : String) (children : List Xml)
deriving Repr

/-- Tag name of an element. -/
def Xml.tag : Xml → String
  | .elem t _ _ _ => t

/-- Characters allowed in a tag or attribute name. -/
def isNameChar (c : Char) : Bool :=
  c.isAlphanum || c == '_' || c == '-' || c == ':' || c == '.'

/-- Take the longest run of name characters. -/
def takeName : List Char → List Char × List Char
  | [] => ([], [])
  | c :: rest =>
    if isNameChar c then
      let tr := takeName rest
      (c :: tr.1, tr.2)
    else ([], c :: rest)

/-- Take characters up to (excluding) the first occurrence of the given
terminator character; fails when the terminator is missing. -/
def takeUntilChar (stop : Char) : List Char → Option (List Char × List Char)
  | [] => none
  | c :: rest =>
    if c == stop then some ([], rest)
    else (takeUntilChar stop rest).map (fun tr => (c :: tr.1, tr.2))

/-- Parse the attribute list of an element tag, up to `>` or `/>`. The second
result component is `true` for a self-closing tag. -/
def parseXAttrs : Nat → List Char → Except String (List (String × String) × Bool × List Char)
  | 0, _ => .error "attribute list too long"
  | fuel + 1, s =>
    match skipWs s with
    | '>' :: rest => .ok ([], false, rest)
    | '/' :: '>' :: rest => .ok ([], true, rest)
    | s2 =>
      match takeName s2 with
      | ([], _) => .error "malformed tag"
      | (nm, rest) =>
        match skipWs rest with
        | '=' :: rest2 =>
          match skipWs rest2 with
          | '"' :: rest3 =>
            (match takeUntilChar '"' rest3 with
             | none => .error "unterminated attribute value"
             | some (v, rest4) =>
               (parseXAttrs fuel rest4).map
                 (fun ar => ((String.mk nm, String.mk v) :: ar.1, ar.2)))
          | _ => .error "expected quoted attribute value"
        | _ => .error "expected attribute value"

mutual

/-- Modelled from the spec: fuel-bounded parser for one XML element starting
at `<`. -/
def parseXElem : Nat → List Char → Except String (Xml × List Char)
  | 0, _ => .error "nesting too deep"
  | fuel + 1, s =>
    match skipWs s with
    | '<' :: rest =>
      (match takeName rest with
       | ([], _) => .error "malformed tag"
       | (nm, rest2) =>
         match parseXAttrs (rest2.length + 1) rest2 with
         | .error e => .error e
         | .ok (attrs, true, rest3) => .ok (.elem (String.mk nm) attrs "" [], rest3)
         | .ok (attrs, false, rest3) =>
           (parseXContent fuel (String.mk nm) rest3).map
             (fun tcr => (.elem (String.mk nm) attrs tcr.1 tcr.2.1, tcr.2.2)))
    | _ => .error "expected element"

/-- Parse element content (text and child elements) up to the matching
closing tag; returns the contained text, the children, and the rest. -/
def parseXContent : Nat → String → List Char → Except String (String × List Xml × List Char)
  | 0, _, _ => .error "nesting too deep"
  | fuel + 1, closing, s =>
    match s with
    | [] => .error "unterminated element"
    | '<' :: '/' :: rest =>
      (match takeName rest with
       | (nm, rest2) =>
         if String.mk nm == closing then
           match skipWs rest2 with
           | '>' :: rest3 => .ok ("", [], rest3)
           | _ => .error "malformed closing tag"
         else .error "mismatched closing tag")
    | '<' :: rest =>
      (match parseXElem fuel ('<' :: rest) with
       | .error e => .error e
       | .ok (child, rest2) =>
         (parseXContent fuel closing rest2).map
           (fun tcr => (tcr.1, child :: tcr.2.1, tcr.2.2)))
    | c :: rest =>
      (parseXContent fuel closing rest).map
        (fun tcr => (String.mk (c :: tcr.1.data), tcr.2.1, tcr.2.2))

end

/-- Modelled from the spec: parse a whole XML document — one root element
with only whitespace after it. -/
def parseXmlDoc (text : String) : Except String Xml :=
  match parseXElem (4 * text.data.length + 16) text.data with
  | .error e => .error e
  | .ok (root, rest) =>
    match skipWs rest with
    | [] => .ok root
    | _ => .error "trailing data after document"

/-! ### CSV -/

/-- Split a character list on a separator character. -/
def splitOnChar (sep : Char) : List Char → List (List Char)
  | [] => [[]]
  | c :: rest =>
    let r := splitOnChar sep rest
    if c == sep then [] :: r
    else
      match r with
      | [] => [[c]]
      | g :: gs => (c :: g) :: gs

/-- Modelled from the spec: tabular input — a fixed, ordered column-name list
and ordered rows; a missing cell is the explicit absent marker `none`,
distinct from the empty string. -/
structure Csv where
  header : List String
  rows : List (List (Option String))
deriving Repr

/-- Drop a trailing carriage return, for CRLF input lines. -/
def dropCr (l : List Char) : List Char :=
  match l.getLast? with
  | some '\r' => l.dropLast
  | _ => l

/-- Cells of one CSV line. -/
def csvCells (l : List Char) : List String :=
  (splitOnChar ',' (dropCr l)).map String.mk

/-- Modelled from the spec: parse CSV text — first line is the header, every
further line one row; a row shorter than the header has absent cells. -/
def parseCsvDoc (text : String) : Except String Csv :=
  match splitOnChar '\n' text.data with
  | [] => .error "empty CSV"
  | headerLine :: rest =>
    if headerLine = [] then .error "empty CSV header"
    else
      let header := csvCells headerLine
      let dataLines := rest.filter (fun l => dropCr l ≠ [])
      let pad := fun (cells : List String) =>
        (cells.map some) ++ List.replicate (header.length - cells.length) (none : Option String)
      .ok ⟨header, dataLines.map (fun l => pad (csvCells l))⟩

/-- All characters are decimal digits and there is at least one. -/
def isDigitRun (cs : List Char) : Bool :=
  !cs.isEmpty && cs.all Char.isDigit

/-- A numeric cell: optional sign, digits, optionally one decimal point. -/
def isNumericToken (cs : List Char) : Bool :=
  let body := match cs with
    | '-' :: rest => rest
    | _ => cs
  match splitOnChar '.' body with
  | [a] => isDigitRun a
  | [a, b] => isDigitRun a && isDigitRun b
  | _ => false

/-! ## Mappers (spec §4.3–§4.5) -/

/-- The hierarchical path of the `i`-th child of the element at `parent`
(the index disambiguates same-tag siblings). -/
def xmlChildPath (parent : String) (c : Xml) (i : Nat) : String :=
  parent ++ "/" ++ c.tag ++ "_" ++ toString i

/-- One `xyz:hasChild` reference per child, in document order. -/
def xmlChildRefs (parent : String) : List Xml → Nat → List (String × Value)
  | [], _ => []
  | c :: cs, i =>
    ("xyz:hasChild", Value.NodeRef (token (xmlChildPath parent c i))) ::
      xmlChildRefs parent cs (i + 1)

mutual

/-- Modelled from the spec: XmlTreeMapper — depth-first pre-order traversal;
the element's block (type triple, one property per attribute, `hasContent`
for non-empty trimmed text, one `hasChild` ref per child) is closed before
any child block is opened. -/
def xmlNodes : Xml → String → List NodeEmission
  | .elem tg attrs text children, path =>
    ⟨token path, "Element", some tg,
      attrs.map (fun av => ("xyz:" ++ token av.1, Value.StringLiteral av.2)) ++
        (if text.trim = "" then [] else [("xyz:hasContent", Value.StringLiteral text.trim)]) ++
        xmlChildRefs path children 0⟩ ::
      xmlNodesChildren path children 0

/-- Recurse into the children in order, after the parent's block closed. -/
def xmlNodesChildren (parent : String) : List Xml → Nat → List NodeEmission
  | [], _ => []
  | c :: cs, i => xmlNodes c (xmlChildPath parent c i) ++ xmlNodesChildren parent cs (i + 1)

end

/-- Modelled from the spec: the inline rendering of a JSON scalar —
`StringLiteral` for strings, the quoted string `"null"` for JSON null,
`RawToken` for numbers and booleans. -/
def jsonScalarValue : Json → Value
  | .jstr s => .StringLiteral s
  | .jnum raw => .RawToken raw
  | .jbool b => .RawToken (if b then "true" else "false")
  | .jnull => .StringLiteral "null"
  | .jarr _ => .RawToken ""
  | .jobj _ => .RawToken ""

/-- Properties of an object block: a `NodeRef` per container-valued key, an
inlined scalar otherwise, in key iteration order. -/
def jsonObjProps (path : String) : List (String × Json) → List (String × Value)
  | [] => []
  | (k, v) :: rest =>
    (if v.isContainer then ("xyz:" ++ k, Value.NodeRef (token (path ++ "/" ++ k)))
     else ("xyz:" ++ k, jsonScalarValue v)) :: jsonObjProps path rest

/-- Properties of an array block: one `xyz:item_i` reference per item. -/
def jsonArrProps (path : String) : List Json → Nat → List (String × Value)
  | [], _ => []
  | _ :: rest, i =>
    ("xyz:item_" ++ toString i, Value.NodeRef (token (path ++ "/item_" ++ toString i))) ::
      jsonArrProps path rest (i + 1)

mutual

/-- Modelled from the spec: JsonTreeMapper `mapValue(value, path,
isArrayItem)`; a bare scalar (array item or — by the spec's explicit policy —
the document root) materializes as a `Value` node with `xyz:hasValue`. -/
def jsonNodes : Json → String → Bool → List NodeEmission
  | .jobj fields, path, _ =>
    ⟨token path, "Object", none, jsonObjProps path fields⟩ ::
      jsonNodesObjChildren path fields
  | .jarr items, path, _ =>
    ⟨token path, "Array", some "array", jsonArrProps path items 0⟩ ::
      jsonNodesArrChildren path items 0
  | v, path, _ =>
    [⟨token path, "Value", none, [("xyz:hasValue", jsonScalarValue v)]⟩]

/-- Recurse into container-valued keys in order, after the block closed. -/
def jsonNodesObjChildren (path : String) : List (String × Json) → List NodeEmission
  | [] => []
  | (k, v) :: rest =>
    (if v.isContainer then jsonNodes v (path ++ "/" ++ k) false else []) ++
      jsonNodesObjChildren path rest

/-- Recurse into every array item with `isArrayItem = true`, in order. -/
def jsonNodesArrChildren (path : String) : List Json → Nat → List NodeEmission
  | [], _ => []
  | v :: rest, i =>
    jsonNodes v (path ++ "/item_" ++ toString i) true ++
      jsonNodesArrChildren path rest (i + 1)

end

/-- Modelled from the spec: rendering of one cell — `StringLiteral ""` for an
absent cell, `RawToken` for a numeric or boolean cell, escaped
`StringLiteral` for a textual cell. -/
def csvCellValue : Option String → Value
  | none => .StringLiteral ""
  | some cell =>
    if isNumericToken cell.data || cell == "true" || cell == "false" then .RawToken cell
    else .StringLiteral cell

/-- Properties of a row block, in header (column) order. -/
def csvRowProps (header : List String) (cells : List (Option String)) : List (String × Value) :=
  (header.zip (cells ++ List.replicate (header.length - cells.length) none)).map
    (fun hc => ("xyz:" ++ token hc.1, csvCellValue hc.2))

/-- Modelled from the spec: TabularMapper — one Dataset node with a
`xyz:row_i` reference per row, then one Row node per row, columns in header
order, rows in source order. -/
def csvNodes (csv : Csv) : List NodeEmission :=
  ⟨token "dataset", "Root", some "Dataset",
    (List.range csv.rows.length).map
      (fun i => ("xyz:row_" ++ toString i, Value.NodeRef (token ("row_" ++ toString i))))⟩ ::
    csv.rows.enum.map
      (fun ir => ⟨token ("row_" ++ toString ir.1), "Row", some ("Row " ++ toString ir.1),
        csvRowProps csv.header ir.2⟩)

/-! ## The conversion entry point (spec §6, §7) -/

/-- Modelled from the spec: the declared input format tag (never sniffed). -/
inductive Format where
  | XML
  | JSON
  | CSV
deriving Repr, DecidableEq

/-- Modelled from the spec: the error classification — `ParseFailure`
preserves the underlying parser's diagnostic, `EncodingFailure` reports an
invalid byte-to-text decoding. -/
inductive ConversionError where
  | ParseFailure (diagnostic : String)
  | EncodingFailure (diagnostic : String)
deriving Repr, DecidableEq

/-- The Node sequence of a parsed document, in creation order. -/
def documentNodes (f : Format) (text : String) : Except String (List NodeEmission) :=
  match f with
  | .XML => (parseXmlDoc text).map (fun root => xmlNodes root "root")
  | .JSON => (parseJsonDoc text).map (fun v => jsonNodes v "root" false)
  | .CSV => (parseCsvDoc text).map csvNodes

/-- The text of one statement block. -/
def blockText (b : List (List Char)) : String :=
  String.intercalate "\n" (b.map String.mk)

/-- The concatenated statement blocks of the Node sequence, in creation
order, separated by blank lines. -/
def renderNodes (ns : List NodeEmission) : String :=
  String.intercalate "\n\n" (ns.map (fun n => blockText (writeBlock n)))

/-- Modelled from the spec: the fixed prefix block every successful output
begins with — `rdf:`, `fx:`, `xyz:`, `rdfs:`. -/
def turtleHeader : String :=
  "@prefix rdf: <http://www.w3.org/1999/02/22-rdf-syntax-ns#> .\n" ++
    "@prefix fx: <http://sparql.xyz/facade-x/ns/> .\n" ++
    "@prefix xyz: <http://sparql.xyz/facade-x/data/> .\n" ++
    "@prefix rdfs: <http://www.w3.org/2000/01/rdf-schema#> .\n\n"

/-- Modelled from the spec: the conversion entry point
`convert(format, bytes) -> Turtle text | ConversionError`. -/
def convert (f : Format) (bytes : List Nat) : Except ConversionError String :=
  match decodeUtf8 bytes with
  | none => .error (.EncodingFailure "invalid UTF-8 byte sequence")
  | some chars =>
    match documentNodes f (String.mk chars) with
    | .error d => .error (.ParseFailure d)
    | .ok ns => .ok (turtleHeader ++ renderNodes ns)

/-- The ambient state the spec says the core never touches: filesystem,
network, session. -/
structure World where
  fs : List (String × String)
  net : List String
  session : List (String × String)
deriving Repr, DecidableEq

/-- Modelled from the spec: the conversion with the ambient state threaded
through explicitly — the core neither reads nor writes it. -/
def convertW (f : Format) (bytes : List Nat) (w : World) :
    Except ConversionError String × World :=
  (convert f bytes, w)

/-! ## The FastAPI endpoint of src/api.py

The endpoint `convert_to_rdf` is embedded from the source. Its effectful
steps are supplied by an environment recording each step's outcome; the
try/except/finally control flow, the placeholder substitution, and the
temp-file bookkeeping are translated from `src/api.py` lines 42–101. -/

/-- Request model of src/api.py lines 28–34 (`ConversionRequest`); the
source field `variables` is called `vars` here because `variables` is a
reserved word in Lean. -/
structure ConversionRequest where
  file : String
  filename : String
  query : String
  output_format : String
  vars : Option (List (String × String))
  jvm_options : Option (List String)

/-- Response model of src/api.py lines 36–40 (`ConversionResponse`); the
fields `result`, `format` and `error` default to `None`. -/
structure ConversionResponse where
  success : Bool
  result : Option String
  format : Option String
  error : Option String
deriving Repr, DecidableEq

/-- A Python exception value as the endpoint can observe it: either a
FastAPI `HTTPException` or any other exception carrying its message. -/
inductive PyExc where
  | http (status : Nat) (detail : String)
  | plain (msg : String)
deriving Repr, DecidableEq

/-- Outcomes of the endpoint toward the HTTP framework: a normal response
body, or an `HTTPException` propagating out of the handler (which FastAPI
would turn into an HTTP error). -/
inductive EndpointOutcome where
  | ok (r : ConversionResponse)
  | httpError (status : Nat) (detail : String)
deriving Repr, DecidableEq

/-- Outcomes of the effectful steps of one request: each field is the result
the corresponding call in src/api.py would produce, plus the two pure
library functions the endpoint uses on the result. -/
structure ApiEnv where
  decodeResult : Except String (List Nat)
  mkInput : Except String String
  writeInput : Except String Unit
  mkOutput : Except String String
  engineInit : Except String Unit
  engineRun : Except String Unit
  readOutput : Except String String
  b64encode : String → String
  strHttp : Nat → String → String

/-- Which temporary files the endpoint created and deleted during the
request, and the query text the engine was run with (if it was). -/
structure FileTrace where
  inputCreated : Bool
  inputDeleted : Bool
  outputCreated : Bool
  outputDeleted : Bool
  queryExecuted : Option String
deriving Repr, DecidableEq

/-- Python `str.lower` restricted to ASCII, as used on `output_format`. -/
def pyLower (s : String) : String :=
  String.mk (s.data.map Char.toLower)

/-- Python list-prefix test: does `pat` start the list `s`? -/
def leadsWith : List Char → List Char → Bool
  | [], _ => true
  | _ :: _, [] => false
  | p :: ps, c :: cs => p == c && leadsWith ps cs

/-- Python substring test: does `pat` occur contiguously in `s`? -/
def containsSub (pat : List Char) : List Char → Bool
  | [] => leadsWith pat []
  | c :: rest => leadsWith pat (c :: rest) || containsSub pat rest

/-- Python `str.replace(pat, rep)` for a non-empty pattern: replace every
leftmost non-overlapping occurrence of `pat` by `rep`. -/
def pyReplace (s pat rep : List Char) : List Char :=
  match s with
  | [] => []
  | c :: rest =>
    if h : pat ≠ [] ∧ leadsWith pat (c :: rest) = true then
      rep ++ pyReplace ((c :: rest).drop pat.length) pat rep
    else
      c :: pyReplace rest pat rep
termination_by s.length
decreasing_by
  · have hp : 0 < pat.length := List.length_pos.mpr h.1
    simp only [List.length_drop, List.length_cons]
    omega
  · simp

/-- String-level wrapper of `pyReplace`, as line 64 of src/api.py applies it
to the request query. -/
def pyReplaceStr (s pat rep : String) : String :=
  String.mk (pyReplace s.data pat.data rep.data)

/-- The `\x7bfile_path\x7d` placeholder of src/api.py line 64. -/
def filePathPlaceholder : String :=
  String.mk ['{', 'f', 'i', 'l', 'e', '_', 'p', 'a', 't', 'h', '}']

/-- Join segments with a separator list: the decomposition witness used to
state that `pyReplace` substitutes every occurrence of its pattern. -/
def joinSep (sep : List Char) : List (List Char) → List Char
  | [] => []
  | [g] => g
  | g :: g2 :: gs => g ++ sep ++ joinSep sep (g2 :: gs)

/-- The inner `try` body of src/api.py lines 54–88, given the temp input
path: create the output file, initialize the engine, substitute the
placeholder, run the query, read and delete the output, and build the
success response. Failure carries the raised exception's message; the
second component records the query the engine was run with, if it was. -/
def innerBody (req : ConversionRequest) (env : ApiEnv) (inPath : String) :
    Except String (ConversionResponse × FileTrace) × Option String :=
  match env.mkOutput with
  | .error m => (.error m, none)
  | .ok _ =>
    match env.engineInit with
    | .error m => (.error m, none)
    | .ok _ =>
      let query := pyReplaceStr req.query filePathPlaceholder inPath
      match env.engineRun with
      | .error m => (.error m, some query)
      | .ok _ =>
        match env.readOutput with
        | .error m => (.error m, some query)
        | .ok content =>
          (.ok
            ({ success := true
               result := some (env.b64encode content)
               format := some (pyLower req.output_format)
               error := none },
             { inputCreated := true, inputDeleted := false, outputCreated := true,
               outputDeleted := true, queryExecuted := some query }),
           some query)

/-- The endpoint `convert_to_rdf` of src/api.py lines 42–101: the outer
`try` decodes the upload, creates the temp input file, and writes the bytes
to it; the inner `try` converts; an inner exception is re-raised as
`HTTPException(400, "Conversion error: " + str(e))`; the inner `finally`
always deletes the temp input file; and the outer `except Exception`
catches everything — the `HTTPException` included — and returns a failure
response body. A failure of `tmp_file.write` (line 51) happens after the
file is created but before the inner `try`, so on that path the input file
is never unlinked. -/
def convert_to_rdf (req : ConversionRequest) (env : ApiEnv) :
    EndpointOutcome × FileTrace :=
  match env.decodeResult with
  | .error m =>
    (.ok { success := false, result := none, format := none, error := some m },
     { inputCreated := false, inputDeleted := false, outputCreated := false,
       outputDeleted := false, queryExecuted := none })
  | .ok _ =>
    match env.mkInput with
    | .error m =>
      (.ok { success := false, result := none, format := none, error := some m },
       { inputCreated := false, inputDeleted := false, outputCreated := false,
         outputDeleted := false, queryExecuted := none })
    | .ok inPath =>
      match env.writeInput with
      | .error m =>
        (.ok { success := false, result := none, format := none, error := some m },
         { inputCreated := true, inputDeleted := false, outputCreated := false,
           outputDeleted := false, queryExecuted := none })
      | .ok _ =>
      match innerBody req env inPath with
      | (.ok (resp, trace), _) =>
        (.ok resp, { trace with inputDeleted := true })
      | (.error m, ranQuery) =>
        let exc := PyExc.http 400 ("Conversion error: " ++ m)
        let excStr := match exc with
          | .http st d => env.strHttp st d
          | .plain msg => msg
        (.ok { success := false, result := none, format := none, error := some excStr },
         { inputCreated := true, inputDeleted := true,
           outputCreated := env.mkOutput.toOption.isSome,
           outputDeleted := false, queryExecuted := ranQuery })

/-- A sample request for the concrete witnesses: a one-placeholder query. -/
def sampleReq : ConversionRequest :=
  { file := "eyJrIjogMX0="
    filename := "data.json"
    query := "SERVICE <x-sparql-anything:{file_path}>"
    output_format := "TTL"
    vars := none
    jvm_options := none }

/-- A sample environment in which every effectful step succeeds. -/
def sampleEnvOk : ApiEnv :=
  { decodeResult := .ok [123, 34, 107, 34, 58, 32, 49, 125]
    mkInput := .ok "/tmp/input.json"
    writeInput := .ok ()
    mkOutput := .ok "/tmp/output.ttl"
    engineInit := .ok ()
    engineRun := .ok ()
    readOutput := .ok "result text"
    b64encode := fun s => s
    strHttp := fun st d => toString st ++ ": " ++ d }

/-- A sample environment in which the engine run raises. -/
def sampleEnvEngineFail : ApiEnv :=
  { sampleEnvOk with engineRun := .error "query failed" }

/-- A sample environment in which writing the upload to the just-created
temp input file raises (for example, the disk is full). -/
def sampleEnvWriteFail : ApiEnv :=
  { sampleEnvOk with writeInput := .error "disk full" }

/-! ### Writer invariant lemmas -/

theorem mkLine_getLast (s : String) : (mkLine s).getLast? = some ';' := by
  unfold mkLine
  exact List.getLast?_concat _

theorem beginStatement_lines_ne_nil (uri typeTag : String) (label : Option String) :
    (beginStatement uri typeTag label).lines ≠ [] := by
  unfold beginStatement
  cases label <;> simp

theorem beginStatement_lines_semi (uri typeTag : String) (label : Option String) :
    ∀ l ∈ (beginStatement uri typeTag label).lines, l.getLast? = some ';' := by
  unfold beginStatement
  cases label <;> intro l hl <;> simp at hl
  · simpa [hl] using mkLine_getLast _
  · rcases hl with h | h <;> simpa [h] using mkLine_getLast _

theorem addProps_lines (w : Writer) (props : List (String × Value))
    (hne : w.lines ≠ []) (hsemi : ∀ l ∈ w.lines, l.getLast? = some ';') :
    (props.foldl (fun w pv => addProperty w pv.1 pv.2) w).lines ≠ [] ∧
      ∀ l ∈ (props.foldl (fun w pv => addProperty w pv.1 pv.2) w).lines,
        l.getLast? = some ';' := by
  induction props generalizing w with
  | nil => exact ⟨hne, hsemi⟩
  | cons pv rest ih =>
      apply ih
      · simp [addProperty]
      · intro l hl
        simp [addProperty] at hl
        rcases hl with h | h
        · exact hsemi l h
        · simpa [h] using mkLine_getLast _

theorem rewriteLast_eq (ls : List (List Char)) (h : ls ≠ []) :
    rewriteLast ls = ls.dropLast ++ [(ls.getLast h).dropLast ++ ['.']] := by
  induction ls with
  | nil => exact absurd rfl h
  | cons l rest ih =>
      cases rest with
      | nil => simp [rewriteLast]
      | cons l' rest' =>
          simp only [rewriteLast, ih (by simp)]
          simp [List.getLast]

theorem optionCasesEq {α : Type} (o : Option α) : o = none ∨ ∃ a, o = some a := by
  cases o with
  | none => exact .inl rfl
  | some a => exact .inr ⟨a, rfl⟩

theorem exceptCasesEq {ε α : Type} (e : Except ε α) :
    (∃ m, e = .error m) ∨ ∃ a, e = .ok a := by
  cases e with
  | error m => exact .inl ⟨m, rfl⟩
  | ok a => exact .inr ⟨a, rfl⟩

theorem rewriteLast_parts (ls : List (List Char)) (hne : ls ≠ [])
    (hsemi : ∀ l ∈ ls, l.getLast? = some ';') :
    ∃ init last, rewriteLast ls = init ++ [last] ∧ last.getLast? = some '.' ∧
      ∀ l ∈ init, l.getLast? = some ';' := by
  induction ls with
  | nil => exact absurd rfl hne
  | cons l rest ih =>
    cases rest with
    | nil =>
      exact ⟨[], l.dropLast ++ ['.'], by simp [rewriteLast], List.getLast?_concat _, by simp⟩
    | cons l2 rest2 =>
      obtain ⟨init, last, heq, hlast, hinit⟩ :=
        ih (by simp) (fun x hx => hsemi x (List.mem_cons_of_mem l hx))
      refine ⟨l :: init, last, by simp [rewriteLast, heq], hlast, ?_⟩
      intro x hx
      rcases List.mem_cons.mp hx with hx | hx
      · rw [hx]
        exact hsemi l (List.mem_cons_self l _)
      · exact hinit x hx

theorem writeBlock_parts (n : NodeEmission) :
    ∃ init last, writeBlock n = init ++ [last] ∧ last.getLast? = some '.' ∧
      ∀ l ∈ init, l.getLast? = some ';' := by
  obtain ⟨hne, hsemi⟩ := addProps_lines (beginStatement n.uri n.typeTag n.label) n.props
    (beginStatement_lines_ne_nil n.uri n.typeTag n.label)
    (beginStatement_lines_semi n.uri n.typeTag n.label)
  unfold writeBlock endStatement
  exact rewriteLast_parts _ hne hsemi

theorem writeBlock_one_period (n : NodeEmission) :
    (writeBlock n).countP (fun l => l.getLast? == some '.') = 1 := by
  obtain ⟨init, last, heq, hlast, hinit⟩ := writeBlock_parts n
  rw [heq, List.countP_append]
  have h0 : init.countP (fun l => l.getLast? == some '.') = 0 := by
    rw [List.countP_eq_zero]
    intro l hl
    simp [hinit l hl]
  simp [h0, List.countP_cons, hlast]

/-! ### Claim theorems for the spec's CORE -/

/-- C1: for every input byte buffer and declared format tag, the conversion
entry point returns either the complete Turtle text or a `ConversionError`
classification — there is no third outcome. -/
theorem claim_C1_total_classification (f : Format) (bytes : List Nat) :
    (∃ t, convert f bytes = .ok t) ∨ (∃ e, convert f bytes = .error e) := by
  cases hc : convert f bytes with
  | ok t => exact .inl ⟨t, rfl⟩
  | error e => exact .inr ⟨e, rfl⟩

/-- C2: converting identical input bytes with the same declared format tag
twice yields byte-identical output — the transform is a deterministic
function of its input alone. -/
theorem claim_C2_determinism (f1 f2 : Format) (b1 b2 : List Nat)
    (hf : f1 = f2) (hb : b1 = b2) : convert f1 b1 = convert f2 b2 := by
  rw [hf, hb]

/-- Witness for C2 at a concrete input. -/
theorem claim_C2_determinism_witness :
    convert Format.JSON [52, 50] = convert Format.JSON [52, 50] :=
  claim_C2_determinism Format.JSON Format.JSON [52, 50] [52, 50] rfl rfl

/-- C3: every successful output is the fixed prefix block declaring exactly
`rdf:`, `fx:`, `xyz:`, `rdfs:`, followed by one statement block per Node in
creation order. -/
theorem claim_C3_output_shape (f : Format) (bytes : List Nat) (t : String)
    (h : convert f bytes = .ok t) :
    ∃ chars ns,
      decodeUtf8 bytes = some chars ∧
        documentNodes f (String.mk chars) = .ok ns ∧
        t = turtleHeader ++
          String.intercalate "\n\n" (ns.map fun n => blockText (writeBlock n)) ∧
        turtleHeader =
          "@prefix rdf: <http://www.w3.org/1999/02/22-rdf-syntax-ns#> .\n" ++
            "@prefix fx: <http://sparql.xyz/facade-x/ns/> .\n" ++
            "@prefix xyz: <http://sparql.xyz/facade-x/data/> .\n" ++
            "@prefix rdfs: <http://www.w3.org/2000/01/rdf-schema#> .\n\n" := by
  rcases optionCasesEq (decodeUtf8 bytes) with hd | ⟨chars, hd⟩
  · rw [show convert f bytes = .error (.EncodingFailure "invalid UTF-8 byte sequence") from by
      simp [convert, hd]] at h
    exact absurd h (by simp)
  · rcases exceptCasesEq (documentNodes f (String.mk chars)) with ⟨d, hn⟩ | ⟨ns, hn⟩
    · rw [show convert f bytes = .error (.ParseFailure d) from by simp [convert, hd, hn]] at h
      exact absurd h (by simp)
    · have h2 : convert f bytes = .ok (turtleHeader ++ renderNodes ns) := by
        simp [convert, hd, hn]
      rw [h2] at h
      have ht : turtleHeader ++ renderNodes ns = t := by
        simpa using h
      refine ⟨chars, ns, hd, hn, ?_, rfl⟩
      rw [← ht]
      rfl

/-- Witness for C3 at a concrete input: the JSON document `42`. -/
theorem claim_C3_output_shape_witness :
    ∃ chars ns,
      decodeUtf8 [52, 50] = some chars ∧
        documentNodes Format.JSON (String.mk chars) = .ok ns ∧
        (turtleHeader ++ "<http://example.org/root> a fx:Value ;\n    xyz:hasValue 42 .") =
          turtleHeader ++
            String.intercalate "\n\n" (ns.map fun n => blockText (writeBlock n)) ∧
        turtleHeader =
          "@prefix rdf: <http://www.w3.org/1999/02/22-rdf-syntax-ns#> .\n" ++
            "@prefix fx: <http://sparql.xyz/facade-x/ns/> .\n" ++
            "@prefix xyz: <http://sparql.xyz/facade-x/data/> .\n" ++
            "@prefix rdfs: <http://www.w3.org/2000/01/rdf-schema#> .\n\n" :=
  claim_C3_output_shape Format.JSON [52, 50] _ rfl

/-- C4: a conversion either completes and returns the whole rendered output
of the parsed document, or fails and returns only the error — never a
truncated prefix of the output. -/
theorem claim_C4_atomic_completion (f : Format) (bytes : List Nat) :
    (∃ chars ns,
        decodeUtf8 bytes = some chars ∧
          documentNodes f (String.mk chars) = .ok ns ∧
          convert f bytes = .ok (turtleHeader ++ renderNodes ns)) ∨
      ∃ e, convert f bytes = .error e := by
  rcases optionCasesEq (decodeUtf8 bytes) with hd | ⟨chars, hd⟩
  · exact .inr ⟨.EncodingFailure "invalid UTF-8 byte sequence", by simp [convert, hd]⟩
  · rcases exceptCasesEq (documentNodes f (String.mk chars)) with ⟨d, hn⟩ | ⟨ns, hn⟩
    · exact .inr ⟨.ParseFailure d, by simp [convert, hd, hn]⟩
    · exact .inl ⟨chars, ns, hd, hn, by simp [convert, hd, hn]⟩

/-- C5: the conversion is a pure function boundary — the ambient filesystem,
network and session state is returned unchanged, and the result does not
depend on it. -/
theorem claim_C5_pure_boundary (f : Format) (bytes : List Nat) (w w2 : World) :
    (convertW f bytes w).2 = w ∧
      (convertW f bytes w).1 = (convertW f bytes w2).1 ∧
      (convertW f bytes w).1 = convert f bytes :=
  ⟨rfl, rfl, rfl⟩

/-- C6: `token` is a deterministic pure function that replaces every
character outside `[A-Za-z0-9_]` with an underscore, and every character of
its output is in `[A-Za-z0-9_]`. -/
theorem claim_C6_token_sanitizes (p q : String) (h : p = q) :
    token p = token q ∧
      (token p).data = p.data.map (fun c => if c.isAlphanum || c == '_' then c else '_') ∧
      ∀ c ∈ (token p).data, (c.isAlphanum || c == '_') = true := by
  refine ⟨by rw [h], rfl, ?_⟩
  intro c hc
  have hc2 : c ∈ p.data.map (fun c => if isTokenSafe c then c else '_') := hc
  rw [List.mem_map] at hc2
  obtain ⟨c0, _, hc0⟩ := hc2
  by_cases hs : isTokenSafe c0
  · rw [if_pos hs] at hc0
    rw [← hc0]
    exact hs
  · rw [if_neg hs] at hc0
    rw [← hc0]
    decide

/-- Witness for C6 at a concrete path. -/
theorem claim_C6_token_sanitizes_witness :
    token "root/a b" = token "root/a b" ∧
      (token "root/a b").data =
        ("root/a b" : String).data.map (fun c => if c.isAlphanum || c == '_' then c else '_') ∧
      ∀ c ∈ (token "root/a b").data, (c.isAlphanum || c == '_') = true :=
  claim_C6_token_sanitizes "root/a b" "root/a b" rfl

/-- C7: every statement block produced by a `begin … add* … end` call
sequence has exactly one line ending in `.`, it is the last line, and every
earlier line ends in `;`. -/
theorem claim_C7_block_termination (uri typeTag : String) (label : Option String)
    (props : List (String × Value)) :
    ∃ init last,
      writeBlock ⟨uri, typeTag, label, props⟩ = init ++ [last] ∧
        lineEndsIn '.' last ∧ (∀ l ∈ init, lineEndsIn ';' l) ∧
        (writeBlock ⟨uri, typeTag, label, props⟩).countP
          (fun l => l.getLast? == some '.') = 1 := by
  obtain ⟨init, last, heq, hlast, hinit⟩ := writeBlock_parts ⟨uri, typeTag, label, props⟩
  exact ⟨init, last, heq, hlast, hinit, writeBlock_one_period _⟩

/-- Witness for C7 at a concrete call sequence. -/
theorem claim_C7_block_termination_witness :
    ∃ init last,
      writeBlock ⟨"root", "Object", none, [("xyz:name", Value.StringLiteral "Ann")]⟩ =
          init ++ [last] ∧
        lineEndsIn '.' last ∧ (∀ l ∈ init, lineEndsIn ';' l) ∧
        (writeBlock ⟨"root", "Object", none, [("xyz:name", Value.StringLiteral "Ann")]⟩).countP
          (fun l => l.getLast? == some '.') = 1 :=
  claim_C7_block_termination "root" "Object" none [("xyz:name", Value.StringLiteral "Ann")]

/-! ### String replacement lemmas (for the placeholder substitution) -/

theorem stringMk_data (s : String) : String.mk s.data = s := rfl

theorem pyReplace_nil (pat rep : List Char) : pyReplace [] pat rep = [] := by
  simp [pyReplace]

theorem pyReplace_cons_neg (c : Char) (rest pat rep : List Char)
    (h : ¬(pat ≠ [] ∧ leadsWith pat (c :: rest) = true)) :
    pyReplace (c :: rest) pat rep = c :: pyReplace rest pat rep := by
  rw [pyReplace]
  rw [dif_neg h]

theorem pyReplace_cons_pos (c : Char) (rest pat rep : List Char)
    (h : pat ≠ []) (hl : leadsWith pat (c :: rest) = true) :
    pyReplace (c :: rest) pat rep =
      rep ++ pyReplace ((c :: rest).drop pat.length) pat rep := by
  rw [pyReplace]
  rw [dif_pos ⟨h, hl⟩]

theorem leadsWith_append (pat u v : List Char) (h : leadsWith pat u = true) :
    leadsWith pat (u ++ v) = true := by
  induction pat generalizing u with
  | nil => simp [leadsWith]
  | cons p ps ih =>
    cases u with
    | nil => simp [leadsWith] at h
    | cons c cs =>
      simp only [leadsWith, Bool.and_eq_true, beq_iff_eq] at h
      simp only [List.cons_append, leadsWith, Bool.and_eq_true, beq_iff_eq]
      exact ⟨h.1, ih cs h.2⟩

theorem leadsWith_take_drop (pat s : List Char) (h : leadsWith pat s = true) :
    pat ++ s.drop pat.length = s := by
  induction pat generalizing s with
  | nil => simp
  | cons p ps ih =>
    cases s with
    | nil => simp [leadsWith] at h
    | cons c cs =>
      simp only [leadsWith, Bool.and_eq_true, beq_iff_eq] at h
      simp only [List.length_cons, List.drop_succ_cons, List.cons_append, List.cons.injEq]
      exact ⟨h.1, ih cs h.2⟩

theorem containsSub_nil_false (pat : List Char) (hp : pat ≠ []) :
    containsSub pat [] = false := by
  cases pat with
  | nil => exact absurd rfl hp
  | cons p ps => simp [containsSub, leadsWith]

theorem pyReplace_no_occurrence (s pat rep : List Char)
    (h : containsSub pat s = false) : pyReplace s pat rep = s := by
  induction s with
  | nil => exact pyReplace_nil pat rep
  | cons c rest ih =>
    simp only [containsSub, Bool.or_eq_false_iff] at h
    rw [pyReplace_cons_neg c rest pat rep (fun hc => absurd hc.2 (by simp [h.1]))]
    rw [ih h.2]

theorem joinSep_cons_head (sep : List Char) (c : Char) (g : List Char)
    (gs : List (List Char)) :
    joinSep sep ((c :: g) :: gs) = c :: joinSep sep (g :: gs) := by
  cases gs <;> simp [joinSep]

theorem joinSep_cons_cons (sep g g2 : List Char) (gs : List (List Char)) :
    joinSep sep (g :: g2 :: gs) = g ++ sep ++ joinSep sep (g2 :: gs) := by
  simp [joinSep]

theorem pyReplace_segments_nil (pat rep : List Char) (hp : pat ≠ []) :
    ∃ segs, segs ≠ [] ∧ (∀ seg ∈ segs, containsSub pat seg = false) ∧
      ([] : List Char) = joinSep pat segs ∧ pyReplace [] pat rep = joinSep rep segs := by
  refine ⟨[[]], by simp, ?_, by simp [joinSep], by simp [pyReplace_nil, joinSep]⟩
  intro seg hseg
  simp at hseg
  rw [hseg]
  exact containsSub_nil_false pat hp

theorem pyReplace_segments_aux (pat rep : List Char) (hp : pat ≠ []) :
    ∀ n s, s.length ≤ n →
      ∃ segs, segs ≠ [] ∧ (∀ seg ∈ segs, containsSub pat seg = false) ∧
        s = joinSep pat segs ∧ pyReplace s pat rep = joinSep rep segs := by
  intro n
  induction n with
  | zero =>
    intro s hs
    have hsnil : s = [] := List.length_eq_zero.mp (Nat.le_zero.mp hs)
    rw [hsnil]
    exact pyReplace_segments_nil pat rep hp
  | succ n ih =>
    intro s hs
    cases s with
    | nil => exact pyReplace_segments_nil pat rep hp
    | cons c rest =>
      by_cases hl : leadsWith pat (c :: rest) = true
      · have hlen : ((c :: rest).drop pat.length).length ≤ n := by
          have hp1 : 0 < pat.length := List.length_pos.mpr hp
          simp only [List.length_drop, List.length_cons]
          simp only [List.length_cons] at hs
          omega
        obtain ⟨segs, hne, hfree, hjoin, hrep⟩ := ih _ hlen
        obtain ⟨g, gs, rfl⟩ : ∃ g gs, segs = g :: gs := by
          cases segs with
          | nil => exact absurd rfl hne
          | cons g gs => exact ⟨g, gs, rfl⟩
        refine ⟨[] :: g :: gs, by simp, ?_, ?_, ?_⟩
        · intro seg hseg
          rcases List.mem_cons.mp hseg with h1 | h1
          · rw [h1]
            exact containsSub_nil_false pat hp
          · exact hfree seg h1
        · rw [joinSep_cons_cons]
          simp only [List.nil_append]
          rw [← hjoin]
          exact (leadsWith_take_drop pat (c :: rest) hl).symm
        · rw [pyReplace_cons_pos c rest pat rep hp hl, hrep, joinSep_cons_cons]
          simp
      · obtain ⟨segs, hne, hfree, hjoin, hrep⟩ :=
          ih rest (by simp only [List.length_cons] at hs; omega)
        obtain ⟨g, gs, rfl⟩ : ∃ g gs, segs = g :: gs := by
          cases segs with
          | nil => exact absurd rfl hne
          | cons g gs => exact ⟨g, gs, rfl⟩
        refine ⟨(c :: g) :: gs, by simp, ?_, ?_, ?_⟩
        · intro seg hseg
          rcases List.mem_cons.mp hseg with h1 | h1
          · rw [h1]
            have hfg : containsSub pat g = false := hfree g (List.mem_cons_self g gs)
            have hlg : leadsWith pat (c :: g) = false := by
              cases hcg : leadsWith pat (c :: g) with
              | false => rfl
              | true =>
                exfalso
                cases gs with
                | nil =>
                  have hrg : rest = g := by simpa [joinSep] using hjoin
                  rw [hrg] at hl
                  exact hl hcg
                | cons g2 gs2 =>
                  have hrest : c :: rest = (c :: g) ++ (pat ++ joinSep pat (g2 :: gs2)) := by
                    rw [hjoin, joinSep_cons_cons]
                    simp
                  have hlw := leadsWith_append pat (c :: g)
                    (pat ++ joinSep pat (g2 :: gs2)) hcg
                  rw [← hrest] at hlw
                  exact hl hlw
            simp [containsSub, hlg, hfg]
          · exact hfree seg (List.mem_cons_of_mem g h1)
        · rw [joinSep_cons_head, ← hjoin]
        · rw [pyReplace_cons_neg c rest pat rep (fun hc => hl hc.2), hrep, joinSep_cons_head]

theorem pyReplace_segments (pat rep s : List Char) (hp : pat ≠ []) :
    ∃ segs, segs ≠ [] ∧ (∀ seg ∈ segs, containsSub pat seg = false) ∧
      s = joinSep pat segs ∧ pyReplace s pat rep = joinSep rep segs :=
  pyReplace_segments_aux pat rep hp s.length s (le_refl _)

theorem convert_to_rdf_returns_body (req : ConversionRequest) (env : ApiEnv) :
    ∃ r, (convert_to_rdf req env).1 = EndpointOutcome.ok r := by
  rcases exceptCasesEq env.decodeResult with ⟨m, hd⟩ | ⟨bs, hd⟩
  · exact ⟨⟨false, none, none, some m⟩, by simp [convert_to_rdf, hd]⟩
  · rcases exceptCasesEq env.mkInput with ⟨m, hi⟩ | ⟨inPath, hi⟩
    · exact ⟨⟨false, none, none, some m⟩, by simp [convert_to_rdf, hd, hi]⟩
    · rcases exceptCasesEq env.writeInput with ⟨m, hw⟩ | ⟨u, hw⟩
      · exact ⟨⟨false, none, none, some m⟩, by simp [convert_to_rdf, hd, hi, hw]⟩
      · rcases hib : innerBody req env inPath with ⟨m | ⟨resp, trace⟩, rq⟩
        · exact ⟨⟨false, none, none, some (env.strHttp 400 ("Conversion error: " ++ m))⟩,
            by simp [convert_to_rdf, hd, hi, hw, hib]⟩
        · exact ⟨resp, by simp [convert_to_rdf, hd, hi, hw, hib]⟩

/-! ### Claim theorems for src/api.py -/

/-- C8: the endpoint always answers with a normal `ConversionResponse` body
— the inner `HTTPException` is caught by the outer handler, so no HTTP 400
propagates — and when the engine run raises, the body has `success = false`,
`result = None`, and the error string of an `HTTPException` whose detail is
prefixed `Conversion error:`. -/
theorem claim_C8_engine_failure_response (req : ConversionRequest) (env : ApiEnv) :
    (∃ r, (convert_to_rdf req env).1 = EndpointOutcome.ok r) ∧
      ∀ bs inPath outPath m,
        env.decodeResult = .ok bs → env.mkInput = .ok inPath →
          env.writeInput = .ok () → env.mkOutput = .ok outPath →
            env.engineInit = .ok () → env.engineRun = .error m →
              (convert_to_rdf req env).1 =
                .ok { success := false, result := none, format := none,
                      error := some (env.strHttp 400 ("Conversion error: " ++ m)) } := by
  refine ⟨convert_to_rdf_returns_body req env, ?_⟩
  intro bs inPath outPath m hdec hin hwr hout hinit hrun
  simp [convert_to_rdf, innerBody, hdec, hin, hwr, hout, hinit, hrun]

/-- Witness for C8: the engine raises in `sampleEnvEngineFail`, and the
endpoint returns the classified failure body. -/
theorem claim_C8_engine_failure_response_witness :
    (convert_to_rdf sampleReq sampleEnvEngineFail).1 =
      .ok { success := false, result := none, format := none,
            error := some (sampleEnvEngineFail.strHttp 400
              ("Conversion error: " ++ "query failed")) } :=
  (claim_C8_engine_failure_response sampleReq sampleEnvEngineFail).2
    [123, 34, 107, 34, 58, 32, 49, 125] "/tmp/input.json" "/tmp/output.ttl" "query failed"
    rfl rfl rfl rfl rfl rfl

/-- C9: whenever the engine is reached, it runs exactly the user query with
every occurrence of the placeholder replaced by the temp input path: the
executed query is `pyReplace` of the request query; a query without the
placeholder is executed unchanged; and the query decomposes into
placeholder-free segments joined by the placeholder, which the substitution
rejoins with the path. -/
theorem claim_C9_placeholder_substitution (req : ConversionRequest) (env : ApiEnv)
    (bs : List Nat) (inPath outPath : String)
    (hdec : env.decodeResult = .ok bs) (hin : env.mkInput = .ok inPath)
    (hwr : env.writeInput = .ok ()) (hout : env.mkOutput = .ok outPath)
    (hinit : env.engineInit = .ok ()) :
    (convert_to_rdf req env).2.queryExecuted =
        some (pyReplaceStr req.query filePathPlaceholder inPath) ∧
      (containsSub filePathPlaceholder.data req.query.data = false →
        (convert_to_rdf req env).2.queryExecuted = some req.query) ∧
      ∃ segs, segs ≠ [] ∧
        (∀ seg ∈ segs, containsSub filePathPlaceholder.data seg = false) ∧
        req.query.data = joinSep filePathPlaceholder.data segs ∧
        (pyReplaceStr req.query filePathPlaceholder inPath).data =
          joinSep inPath.data segs := by
  have h1 : (convert_to_rdf req env).2.queryExecuted =
      some (pyReplaceStr req.query filePathPlaceholder inPath) := by
    rcases exceptCasesEq env.engineRun with ⟨m, hrun⟩ | ⟨u, hrun⟩
    · simp [convert_to_rdf, innerBody, hdec, hin, hwr, hout, hinit, hrun]
    · rcases exceptCasesEq env.readOutput with ⟨m, hread⟩ | ⟨content, hread⟩
      · simp [convert_to_rdf, innerBody, hdec, hin, hwr, hout, hinit, hrun, hread]
      · simp [convert_to_rdf, innerBody, hdec, hin, hwr, hout, hinit, hrun, hread]
  refine ⟨h1, ?_, ?_⟩
  · intro hnoc
    rw [h1]
    have h2 : pyReplaceStr req.query filePathPlaceholder inPath = req.query := by
      unfold pyReplaceStr
      rw [pyReplace_no_occurrence _ _ _ hnoc]
    rw [h2]
  · obtain ⟨segs, hne, hfree, hjoin, hrep⟩ :=
      pyReplace_segments filePathPlaceholder.data inPath.data req.query.data (by decide)
    exact ⟨segs, hne, hfree, hjoin, by simpa [pyReplaceStr] using hrep⟩

/-- Witness for C9 at the sample request and all-success environment. -/
theorem claim_C9_placeholder_substitution_witness :
    (convert_to_rdf sampleReq sampleEnvOk).2.queryExecuted =
        some (pyReplaceStr sampleReq.query filePathPlaceholder "/tmp/input.json") ∧
      (containsSub filePathPlaceholder.data sampleReq.query.data = false →
        (convert_to_rdf sampleReq sampleEnvOk).2.queryExecuted = some sampleReq.query) ∧
      ∃ segs, segs ≠ [] ∧
        (∀ seg ∈ segs, containsSub filePathPlaceholder.data seg = false) ∧
        sampleReq.query.data = joinSep filePathPlaceholder.data segs ∧
        (pyReplaceStr sampleReq.query filePathPlaceholder "/tmp/input.json").data =
          joinSep ("/tmp/input.json" : String).data segs :=
  claim_C9_placeholder_substitution sampleReq sampleEnvOk
    [123, 34, 107, 34, 58, 32, 49, 125] "/tmp/input.json" "/tmp/output.ttl"
    rfl rfl rfl rfl rfl

/-- C10 counterexample: when writing the upload to the just-created temp
input file raises (src/api.py line 51, before the inner try/finally), the
input file was created but is not deleted before the endpoint returns. -/
theorem claim_C10_cleanup_counterexample :
    (convert_to_rdf sampleReq sampleEnvWriteFail).2.inputCreated = true ∧
      (convert_to_rdf sampleReq sampleEnvWriteFail).2.inputDeleted = false :=
  ⟨rfl, rfl⟩

/-- C10 as amended: once the upload bytes are successfully written to the
temp input file (the inner try/finally is entered), the input file is
deleted before the endpoint returns, whether the conversion succeeds or
raises; and the temp output file is deleted exactly on the success path. -/
theorem claim_C10_cleanup_amended (req : ConversionRequest) (env : ApiEnv) :
    (∀ u, env.writeInput = .ok u →
      (convert_to_rdf req env).2.inputCreated = true →
        (convert_to_rdf req env).2.inputDeleted = true) ∧
      ((convert_to_rdf req env).2.outputDeleted = true →
        ∃ r, (convert_to_rdf req env).1 = .ok r ∧ r.success = true) ∧
      ((∃ r, (convert_to_rdf req env).1 = .ok r ∧ r.success = true) →
        (convert_to_rdf req env).2.outputDeleted = true) := by
  rcases exceptCasesEq env.decodeResult with ⟨m, hd⟩ | ⟨bs, hd⟩
  · refine ⟨?_, ?_, ?_⟩ <;> simp [convert_to_rdf, hd]
  · rcases exceptCasesEq env.mkInput with ⟨m, hi⟩ | ⟨inPath, hi⟩
    · refine ⟨?_, ?_, ?_⟩ <;> simp [convert_to_rdf, hd, hi]
    · rcases exceptCasesEq env.writeInput with ⟨m, hw⟩ | ⟨u, hw⟩
      · refine ⟨?_, ?_, ?_⟩ <;> simp [convert_to_rdf, hd, hi, hw]
      · rcases exceptCasesEq env.mkOutput with ⟨m, ho⟩ | ⟨outPath, ho⟩
        · refine ⟨?_, ?_, ?_⟩ <;> simp [convert_to_rdf, innerBody, hd, hi, hw, ho]
        · rcases exceptCasesEq env.engineInit with ⟨m, he⟩ | ⟨u2, he⟩
          · refine ⟨?_, ?_, ?_⟩ <;> simp [convert_to_rdf, innerBody, hd, hi, hw, ho, he]
          · rcases exceptCasesEq env.engineRun with ⟨m, hr⟩ | ⟨u3, hr⟩
            · refine ⟨?_, ?_, ?_⟩ <;>
                simp [convert_to_rdf, innerBody, hd, hi, hw, ho, he, hr]
            · rcases exceptCasesEq env.readOutput with ⟨m, hrd⟩ | ⟨content, hrd⟩
              · refine ⟨?_, ?_, ?_⟩ <;>
                  simp [convert_to_rdf, innerBody, hd, hi, hw, ho, he, hr, hrd]
              · refine ⟨?_, ?_, ?_⟩ <;>
                  simp [convert_to_rdf, innerBody, hd, hi, hw, ho, he, hr, hrd]

/-- Witness for the amended C10: on the all-success environment the input
file is deleted, and the output deletion coincides with success. -/
theorem claim_C10_cleanup_amended_witness :
    (convert_to_rdf sampleReq sampleEnvOk).2.inputDeleted = true :=
  (claim_C10_cleanup_amended sampleReq sampleEnvOk).1 () rfl rfl

end SparqlAnything
